import Mathlib

/-!
Verification of the insurance-terms tag-expansion engine
(`Insurance_Terms_AutoGen/src/tag_processor.py`, `csv_loader.py` and
`Insurance_Terms_AutoGen_260209/src/print_dambo.py`, `csv_loader.py`)
against its natural-language specification.

Python strings / lists / dicts are embedded as `String` / `List` /
association lists.  Python `float` values are embedded as exact fractions
(`PyFloat`): every numeric value handled by the program (table cells,
payout percentages, the digit-string operands of the tag grammar) is a
small decimal for which binary floating point arithmetic is exact, so the
fraction model agrees with the source on all inputs used here.  Raised
exceptions are embedded as `Except PyErr`.
-/

/-!
## ReferenceLookup — `csv_loader.py`

A reference-table row, projected to the four cells the lookups read.  The
`코드명` and `약관문구` fields stand for the cell obtained after the source's
column-name fallback (`코드명` / `태그명` / `태그명(코드명)`, resp.
`약관문구` / `적용문구` / `적용문구(약관문구)`).
-/
/-!
## TagProcessor — `Insurance_Terms_AutoGen/src/tag_processor.py`
-/

/-!
## The text model

A text unit is embedded as a list of segments: maximal runs of ordinary
text, and one segment per occurrence of a tag of the closed grammar
(`output_control_patterns`, `substitution_patterns`, `pgm_patterns` of
`tag_processor.py:65-96`).  The regex families are mutually exclusive on any
concrete text, so `re.finditer` for one family returns exactly the segments
of that family, in order, and the string-slice deletions of the source cut
exactly at segment boundaries.
-/

/-!
### Pass 1 — output-control deletion (`_process_single_output_tag`,
`tag_processor.py:131-192`)
-/

/-!
### Pass 2 — substitution (`_process_substitution_tags`,
`tag_processor.py:230-234` and the handlers at 244-324)
-/

/-!
### Pass 3 — computed tags (`_process_pgm_tags`, `tag_processor.py:236-240`)
-/

/-!
## AttributeResolver / DocumentAssembler —
`Insurance_Terms_AutoGen_260209/src/print_dambo.py`

The program/rate workbook arrays (`numpy` object arrays) are embedded as
lists of rows of cells; a cell is `none` (Python `None`), a string, or a
number.  `str()` of a float cell is abstracted (key columns of the modelled
data are strings, so the rendering is never compared).  The companion
`data_loader.py` of this variant is not under the sources; its
`get_array_row` / `find_row_in_array` are taken from the identically named
module of `Insurance_Terms_AutoGen/src/data_loader.py:418-465`, which this
variant imports by the same name.
-/

/-!
## DocumentAssembler — `_copy_terms` and the `execute` loop
(`print_dambo.py:726-855`, `print_dambo.py:218-311`)

The Word source document is abstracted to its comment sequence: each
comment carries the coverage codes of its (comma-split, stripped) text, the
rider label `특별약관명` (the stripped text of its anchor paragraph) and the
document content from its anchor paragraph to the next comment's anchor
paragraph (`""` for the last comment, whose copy range stays zero-width).
The target document is abstracted to the predicate "a paste location exists
for this category" plus the ordered log of inserted contents.
-/

/-- Python exceptions that the modelled code can raise. -/
inductive PyErr where
  | zeroDivisionError
  | indexError
  | typeError
  deriving DecidableEq, Repr

/-- Exact-fraction model of a Python `float` (`den` is kept positive by
construction). -/
structure PyFloat where
  num : Int
  den : Int
  deriving DecidableEq, Repr

/-- Embedding of a Python `int` as a `PyFloat` (Python mixes the two freely
in the arithmetic modelled here). -/
def PyFloat.ofInt (i : Int) : PyFloat := ⟨i, 1⟩

/-- Python `<=` on floats (both denominators positive). -/
def PyFloat.le (a b : PyFloat) : Bool := decide (a.num * b.den ≤ b.num * a.den)

/-- Python `*` on floats. -/
def PyFloat.mul (a b : PyFloat) : PyFloat := ⟨a.num * b.num, a.den * b.den⟩

/-- Python `+` on floats. -/
def PyFloat.add (a b : PyFloat) : PyFloat :=
  ⟨a.num * b.den + b.num * a.den, a.den * b.den⟩

/-- Python `/` on floats, assuming the divisor is non-zero (the zero case is
handled by the caller, which models `ZeroDivisionError`). -/
def PyFloat.div (a b : PyFloat) : PyFloat :=
  let n := a.num * b.den
  let d := a.den * b.num
  if d < 0 then ⟨-n, -d⟩ else ⟨n, d⟩

/-- Python truncating conversion `int(x)` on a float (rounds toward zero). -/
def PyFloat.trunc (a : PyFloat) : Int :=
  Int.sign a.num * Int.sign a.den * ((a.num.natAbs / a.den.natAbs : Nat) : Int)

/-- Python `x == int(x)`: the float is integral. -/
def PyFloat.isInt (a : PyFloat) : Bool := a.num.natAbs % a.den.natAbs == 0

/-- Python `x > 0` on floats. -/
def PyFloat.pos (a : PyFloat) : Bool := decide (0 < a.num)

/-- Python truthiness of a float (`0.0` is falsy). -/
def PyFloat.truthy (a : PyFloat) : Bool := a.num != 0

/-- Stable ascending sort: the embedding of Python `sorted(...)` (both are
the unique stable sort by `≤`). -/
def pySorted (l : List PyFloat) : List PyFloat :=
  List.insertionSort (fun a b => PyFloat.le a b) l

/-- Stable ascending sort on integer lists, embedding Python `sorted(...)`. -/
def pySortedInt (l : List Int) : List Int :=
  List.insertionSort (fun a b => decide (a ≤ b)) l

/-- Python `str.strip()` (remove leading and trailing whitespace). -/
def pyStrip (s : String) : String :=
  ⟨((s.data.dropWhile Char.isWhitespace).reverse.dropWhile Char.isWhitespace).reverse⟩

/-- Python list indexing `l[i]` with negative-index support; `none` models a
raised `IndexError`. -/
def pyGet {α : Type} (l : List α) (i : Int) : Option α :=
  if 0 ≤ i then l.get? i.toNat
  else if i.natAbs ≤ l.length then l.get? (l.length - i.natAbs)
  else none

/-- Digit-string parser: `"123"` etc.  Helper for the numeric parsers. -/
def parseDigitsAux : List Char → Option Nat → Option Nat
  | [], acc => acc
  | c :: rest, acc =>
      if c.isDigit then
        parseDigitsAux rest (some ((acc.getD 0) * 10 + (c.toNat - '0'.toNat)))
      else none

/-- Python `int(s)` on a string: optional sign followed by digits, else a
`ValueError` (modelled as `none`). -/
def parsePyInt (s : String) : Option Int :=
  match (pyStrip s).data with
  | [] => none
  | '-' :: rest => (parseDigitsAux rest none).map (fun n => -(n : Int))
  | '+' :: rest => (parseDigitsAux rest none).map (fun n => (n : Int))
  | l => (parseDigitsAux l none).map (fun n => (n : Int))

/-- Splits a digit/point string into integer and fractional digit runs. -/
def splitAtPoint : List Char → List Char × Option (List Char)
  | [] => ([], none)
  | '.' :: rest => ([], some rest)
  | c :: rest =>
      let (ip, fp) := splitAtPoint rest
      (c :: ip, fp)

/-- Python `float(s)` on the decimal strings arising here (`"2"`, `"0.5"`,
...); exotic float syntax (exponents, `inf`) never occurs in the modelled
inputs and is mapped to `none` (`ValueError`). -/
def parsePyFloat (s : String) : Option PyFloat :=
  let core : List Char → Option PyFloat := fun l =>
    let (ip, fp) := splitAtPoint l
    match fp with
    | none =>
        (parseDigitsAux ip none).map (fun n => ⟨(n : Int), 1⟩)
    | some fdigits =>
        if ip = [] ∧ fdigits = [] then none
        else
          let ipVal : Nat := (parseDigitsAux ip (some 0)).getD 0
          match fdigits with
          | [] => if ip = [] then none else some ⟨(ipVal : Int), 1⟩
          | _ =>
              match parseDigitsAux fdigits (some 0) with
              | none => none
              | some fv =>
                  let scale : Nat := 10 ^ fdigits.length
                  some ⟨(ipVal * scale + fv : Nat), (scale : Nat)⟩
  match (pyStrip s).data with
  | [] => none
  | '-' :: rest => (core rest).map (fun q => ⟨-q.num, q.den⟩)
  | '+' :: rest => core rest
  | l => core l

structure RefRow where
  «코드명» : String
  «담보속성» : String
  «적용구분» : String
  «약관문구» : String
  deriving DecidableEq, Repr

/-- Embeds `CSVLoader._build_참조_index` plus its dictionary lookup
(`Insurance_Terms_AutoGen/src/csv_loader.py:163`): the entry list stored for
a key is the `(담보속성, 적용구분, 약관문구)` triples of the rows whose
stripped `코드명` is non-empty and equal to the key, in row order. -/
def «참조entries» (rows : List RefRow) (key : String) :
    List (String × String × String) :=
  (rows.filter (fun r => pyStrip r.«코드명» ≠ "" ∧ pyStrip r.«코드명» = key)).map
    (fun r => (pyStrip r.«담보속성», pyStrip r.«적용구분», r.«약관문구»))

/-- The row loop of `CSVLoader.find_참조문구`
(`Insurance_Terms_AutoGen/src/csv_loader.py:189-222`). -/
def «find_참조문구Loop» («담보속성» : Option String) («적용구분» : Option Int) :
    List (String × String × String) → String
  | [] => ""
  | (rowAttr, rowApp, phrase) :: rest =>
      let attrMismatch : Bool :=
        match «담보속성» with
        | some a => rowAttr != pyStrip a
        | none => false
      if attrMismatch then «find_참조문구Loop» «담보속성» «적용구분» rest
      else if rowApp = "" then ""
      else
        match «적용구분» with
        | none => phrase
        | some v =>
            match parsePyInt rowApp with
            | none => «find_참조문구Loop» «담보속성» «적용구분» rest
            | some av =>
                if av ≠ v then «find_참조문구Loop» «담보속성» «적용구분» rest
                else phrase

/-- Embeds `CSVLoader.find_참조문구` of `Insurance_Terms_AutoGen/src/csv_loader.py`
(index-based variant): resolve `(코드명, 담보속성, 적용구분)` to a phrase; a
blank `적용구분` cell on the first row passing the literal/family filters
means "delete the tag unconditionally" (empty string); no row at all also
yields the empty string. -/
def «find_참조문구» (rows : List RefRow) («코드명» : String)
    («담보속성» : Option String) («적용구분» : Option Int) : String :=
  let entries := «참조entries» rows (pyStrip «코드명»)
  if entries = [] then ""
  else «find_참조문구Loop» «담보속성» «적용구분» entries

/-- The row loop of the direct-scan `CSVLoader.find_참조문구` of
`Insurance_Terms_AutoGen_260209/src/csv_loader.py:132-172`. -/
def «find_참조문구Loop260209» («코드명» : String) («담보속성» : Option String)
    («적용구분» : Option Int) : List RefRow → String
  | [] => ""
  | r :: rest =>
      if pyStrip r.«코드명» = pyStrip «코드명» then
        let attrMismatch : Bool :=
          match «담보속성» with
          | some a => pyStrip r.«담보속성» != pyStrip a
          | none => false
        if attrMismatch then
          «find_참조문구Loop260209» «코드명» «담보속성» «적용구분» rest
        else if pyStrip r.«적용구분» = "" then ""
        else
          match «적용구분» with
          | none => r.«약관문구»
          | some v =>
              match parsePyInt (pyStrip r.«적용구분») with
              | none => «find_참조문구Loop260209» «코드명» «담보속성» «적용구분» rest
              | some av =>
                  if av ≠ v then
                    «find_참조문구Loop260209» «코드명» «담보속성» «적용구분» rest
                  else r.«약관문구»
      else «find_참조문구Loop260209» «코드명» «담보속성» «적용구분» rest

/-- Embeds `CSVLoader.find_참조문구` of
`Insurance_Terms_AutoGen_260209/src/csv_loader.py` (direct row scan). -/
def «find_참조문구260209» (rows : List RefRow) («코드명» : String)
    («담보속성» : Option String) («적용구분» : Option Int) : String :=
  «find_참조문구Loop260209» «코드명» «담보속성» «적용구분» rows

/-- The `TagContext` dataclass (`tag_processor.py:16-46`), with the source's
field defaults. -/
structure TagContext where
  «담보코드» : String := ""
  «대표담보코드» : String := ""
  «대표담보코드_list» : List String := []
  «면책» : Int := 0
  «감액» : Int := 0
  «진단확정» : Int := 0
  «부모» : Int := 0
  «예약가입연령» : Int := 0
  «연장형» : Int := 0
  «단체» : Int := 0
  «자동갱신형» : Int := 0
  «독립특약» : Int := 0
  «비갱신» : Int := 0
  «감액한번» : Bool := true
  «감액두번» : Bool := false
  «감액기간_list» : List (List Int) := []
  «감액비율_list» : List (List PyFloat) := []
  «지급률_data» : List (String × List (List PyFloat)) := []
  «세부보장명_list» : List String := []
  deriving DecidableEq, Repr

/-- Python dict lookup (`key in d` followed by `d[key]`); keys are unique, so
first-match on the association list is the dict semantics. -/
def pyDictFind {α : Type} (d : List (String × α)) (key : String) : Option α :=
  (d.find? (fun p => p.1 == key)).map (·.2)

/-- Embeds `TagProcessor._get_attribute_value` (`tag_processor.py:194-228`).  The
`N=0 → 1` adjustment and the 0-based index of the source are computed but
unused there: every branch reads a scalar context field. -/
def «_get_attribute_value» (attrName : String) (nValue : Nat) (ctx : TagContext) :
    Bool :=
  let _nAdjusted := if nValue = 0 then 1 else nValue
  if attrName = "면책" then decide (ctx.«면책» > 0)
  else if attrName = "감액" then decide (ctx.«감액» > 0)
  else if attrName = "진단확정" then decide (ctx.«진단확정» > 0)
  else if attrName = "부모" then decide (ctx.«부모» > 0)
  else if attrName = "연장형" then decide (ctx.«연장형» > 0)
  else if attrName = "단체" then decide (ctx.«단체» > 0)
  else if attrName = "자동갱신형" then decide (ctx.«자동갱신형» > 0)
  else if attrName = "독립특약" then decide (ctx.«독립특약» > 0)
  else if attrName = "비갱신" then decide (ctx.«비갱신» > 0 ∨ ctx.«자동갱신형» = 0)
  else if attrName = "갱신" then decide (ctx.«자동갱신형» > 0)
  else if attrName = "감액한번" then ctx.«감액한번» && !ctx.«감액두번»
  else if attrName = "감액두번" then ctx.«감액두번»
  else false

/-- Embeds `TagProcessor._format_기간` (`tag_processor.py:413-424`): format a period
in days; `//` and `%` are Python floor division and modulus. -/
def «_format_기간» (days : Int) : String :=
  if days = 0 then ""
  else if days < 30 then s!"{days}일"
  else if days < 365 then
    let months := Int.fdiv days 30
    if Int.emod days 30 = 0 then s!"{months}개월" else s!"{days}일"
  else
    let years := Int.fdiv days 365
    if Int.emod days 365 = 0 then s!"{years}년" else s!"{days}일"

/-- Embeds `TagProcessor._replace_감액기간` (`tag_processor.py:326-344`): resolve
`{감액기간N-K}` against the ascending-sorted N-th reduction-period list;
out-of-range indices yield the literal `"NA"`. -/
def «_replace_감액기간» (ctx : TagContext) (n k : Nat) : Except PyErr String :=
  let idxN : Int := (n : Int) - 1
  let idxK : Int := (k : Int) - 1
  if idxN < (ctx.«감액기간_list».length : Int) then
    match pyGet ctx.«감액기간_list» idxN with
    | none => .error .indexError
    | some lst =>
        let sortedLst := pySortedInt lst
        if idxK < (sortedLst.length : Int) then
          match pyGet sortedLst idxK with
          | none => .error .indexError
          | some d => .ok («_format_기간» d)
        else .ok "NA"
  else .ok "NA"

/-- The two arithmetic modifiers of the `{지급률N-M-K}` grammar. -/
inductive PyOp where
  | mul
  | div
  deriving DecidableEq, Repr

/-- The `try/except ValueError` arithmetic block of `_replace_지급률`
(`tag_processor.py:379-388`): `if operator and operand` guards the block, a
`ValueError` from `float(operand)` is swallowed, and division by a zero
operand raises `ZeroDivisionError` (not caught by the `except ValueError`). -/
def applyRateArith (v : PyFloat) (op : Option PyOp) (operand : Option String) :
    Except PyErr PyFloat :=
  match op, operand with
  | some o, some s =>
      if s = "" then .ok v
      else
        match parsePyFloat s with
        | none => .ok v
        | some ov =>
            match o with
            | .mul => .ok (v.mul ov)
            | .div =>
                if ov.num = 0 then .error .zeroDivisionError else .ok (v.div ov)
  | _, _ => .ok v

/-- Rounding of `10 * q` to the nearest integer, ties to even: the exact
counterpart of Python's `f"{x:.1f}"` rounding on the decimals arising here. -/
def roundTenthsHalfEven (q : PyFloat) : Int :=
  let n := 10 * q.num
  let d := q.den
  let fl := Int.fdiv n d
  let r2 := 2 * (n - fl * d)
  if r2 > d then fl + 1
  else if r2 < d then fl
  else if Int.emod fl 2 = 0 then fl else fl + 1

/-- Python `f"{x:.1f}"` on the modelled floats. -/
def formatOneDecimal (q : PyFloat) : String :=
  let r := roundTenthsHalfEven q
  let sign := if r < 0 then "-" else ""
  let a := r.natAbs
  sign ++ s!"{a / 10}.{a % 10}"

/-- The result formatting of `_replace_지급률` (`tag_processor.py:390-394`):
integral values print without a decimal point, others with one decimal;
the captured `%` group is appended by an f-string, so an absent group
(`None`) renders as the text `"None"`, exactly as in the source. -/
def formatRate (v : PyFloat) (pct : Option String) : String :=
  let pctText := match pct with | some s => s | none => "None"
  if v.isInt then s!"{v.trunc}" ++ pctText
  else formatOneDecimal v ++ pctText

/-- Embeds `TagProcessor._replace_지급률` (`tag_processor.py:346-396`): resolve
`{지급률N-M-K}` (with optional `*x` / `/x` modifier and optional literal `%`)
against the ascending-sorted payout list of representative coverage `N`,
sub-coverage `M`. -/
def «_replace_지급률» (ctx : TagContext) (n m k : Nat) (op : Option PyOp)
    (operand : Option String) (pct : Option String) : Except PyErr String :=
  let idxN : Int := (n : Int) - 1
  let idxM : Int := (m : Int) - 1
  let idxK : Int := (k : Int) - 1
  if idxN ≥ (ctx.«대표담보코드_list».length : Int) then .ok ""
  else
    match pyGet ctx.«대표담보코드_list» idxN with
    | none => .error .indexError
    | some code =>
        match pyDictFind ctx.«지급률_data» code with
        | none => .ok ""
        | some lists =>
            if idxM < (lists.length : Int) then
              match pyGet lists idxM with
              | none => .error .indexError
              | some lst =>
                  let sortedLst := pySorted lst
                  if idxK < (sortedLst.length : Int) then
                    match pyGet sortedLst idxK with
                    | none => .error .indexError
                    | some v0 =>
                        match applyRateArith v0 op operand with
                        | .error e => .error e
                        | .ok v => .ok (formatRate v pct)
                  else .ok ""
            else .ok ""

/-- Embeds `TagProcessor._lookup_참조` (`tag_processor.py:398-411`): a missing
loader yields `""`; otherwise the reference-table result, with any falsy
result (`""` or `None`) collapsed to `""`.  The return type is `String` —
this function can never return Python `None`. -/
def «_lookup_참조» (loader : Option (List RefRow)) («코드명» : String)
    («담보속성» : Option String) («적용구분» : Option Int) : String :=
  match loader with
  | none => ""
  | some rows =>
      let result := «find_참조문구» rows «코드명» «담보속성» «적용구분»
      if result = "" then "" else result

/-- The nine output-control tag families (`tag_processor.py:86-96`), in
source order. -/
inductive OCFam where
  | «면책»
  | «감액있음»
  | «비갱신»
  | «갱신»
  | «감액한번»
  | «감액두번»
  | «진단확정»
  | «자동갱신형»
  | «독립특약»
  deriving DecidableEq, Repr

/-- The `attr_name` paired with each output-control pattern. -/
def famAttrName : OCFam → String
  | .«면책» => "면책"
  | .«감액있음» => "감액"
  | .«비갱신» => "비갱신"
  | .«갱신» => "갱신"
  | .«감액한번» => "감액한번"
  | .«감액두번» => "감액두번"
  | .«진단확정» => "진단확정"
  | .«자동갱신형» => "자동갱신형"
  | .«독립특약» => "독립특약"

/-- Whether the family's pattern captures an `N` group (`{면책0-K}` and
`{독립특약0-K}` have a literal `0` and a single captured group, so their
`n_value` is the default `1`). -/
def famHasN : OCFam → Bool
  | .«면책» => false
  | .«독립특약» => false
  | _ => true

/-- The substitution-tag families whose pattern is `\{NAME(\d*)\}` (an empty
capture is falsy in the handler). -/
inductive SubFamStar where
  | «단체»
  | «감액»
  | «연장형»
  | «부모»
  | «예약가입»
  deriving DecidableEq, Repr

/-- The substitution-tag families whose pattern captures mandatory digits:
`{감액2-N}`, `{진단확정N}`, `{세부보장N}`. -/
inductive SubFamPlus where
  | «감액2»
  | «진단확정»
  | «세부보장»
  deriving DecidableEq, Repr

/-- One segment of a text unit. -/
inductive Seg where
  /-- A maximal run of ordinary text (matches no tag pattern). -/
  | txt (s : String)
  /-- An output-control tag `{NAMEN-K}`; `n` is the captured `N` digits
  (`0` for the fixed-`0` families). -/
  | octag (fam : OCFam) (n : Nat) (k : Nat)
  /-- A substitution tag with optional digits, e.g. `{단체}` / `{단체3}`;
  `none` models an empty `(\d*)` capture. -/
  | subtagN (fam : SubFamStar) (n : Option Nat)
  /-- A substitution tag with mandatory digits, e.g. `{진단확정1}`. -/
  | subtagD (fam : SubFamPlus) (n : Nat)
  /-- The literal `{보통약관 해약환급금}` tag. -/
  | subtagPlain
  /-- A computed tag `{감액기간N-K}`. -/
  | «감액기간tag» (n k : Nat)
  /-- A computed tag `{지급률N-M-K}` with optional modifier and `%`. -/
  | «지급률tag» (n m k : Nat) (op : Option PyOp) (operand : Option String)
      (pct : Option String)
  deriving DecidableEq, Repr

/-- One `re.finditer` match of an output-control pattern: its segment
position and captured groups. -/
structure OCMatch where
  pos : Nat
  n : Nat
  k : Nat
  deriving DecidableEq, Repr

/-- Positions and groups of the family's tags, left to right
(`re.finditer`). -/
def findMatchesAux (fam : OCFam) : List Seg → Nat → List OCMatch
  | [], _ => []
  | .octag f n k :: rest, i =>
      if f = fam then ⟨i, n, k⟩ :: findMatchesAux fam rest (i + 1)
      else findMatchesAux fam rest (i + 1)
  | _ :: rest, i => findMatchesAux fam rest (i + 1)

/-- Embeds `list(regex.finditer(text))` for one output-control family. -/
def findMatches (fam : OCFam) (text : List Seg) : List OCMatch :=
  findMatchesAux fam text 0

/-- The pair-validity test of `tag_processor.py:164`. -/
def validPair (k1 k2 : Nat) : Bool :=
  ((k1 == 1 || k1 == 3) && (k2 == 2 || k2 == 4)) ||
    ((k1 == 2 || k1 == 4) && (k2 == 1 || k2 == 3))

/-- Embeds `text[:m1.start()] + text[m1.end():m2.start()] + text[m2.end():]` —
delete only the two one-segment tag markers at positions `s1 < s2`. -/
def deleteTagsOnly (text : List Seg) (s1 s2 : Nat) : List Seg :=
  text.take s1 ++ ((text.drop (s1 + 1)).take (s2 - (s1 + 1))) ++ text.drop (s2 + 1)

/-- Embeds `text[:m1.start()] + text[m2.end():]` — delete the markers and the
content between them. -/
def deleteAll (text : List Seg) (s1 s2 : Nat) : List Seg :=
  text.take s1 ++ text.drop (s2 + 1)

/-- The `while i < len(matches) - 1` loop of `_process_single_output_tag`.
After every deletion the text is re-scanned and `i` resets to `0`; each
deletion removes at least two matches, so `(len(text)+1)²` fuel strictly
exceeds the number of loop iterations and the fuelled function computes the
source loop exactly. -/
def ocLoop (ctx : TagContext) (fam : OCFam) :
    Nat → List Seg → List OCMatch → Nat → List Seg
  | 0, text, _, _ => text
  | fuel + 1, text, ms, i =>
      match ms.get? i, ms.get? (i + 1) with
      | some m1, some m2 =>
          if validPair m1.k m2.k then
            let nValue := if famHasN fam then m1.n else 1
            let attrValue := «_get_attribute_value» (famAttrName fam) nValue ctx
            let text' :=
              if m1.k = 1 ∨ m1.k = 2 then
                if attrValue then deleteTagsOnly text m1.pos m2.pos
                else deleteAll text m1.pos m2.pos
              else
                if attrValue then deleteAll text m1.pos m2.pos
                else deleteTagsOnly text m1.pos m2.pos
            ocLoop ctx fam fuel text' (findMatches fam text') 0
          else ocLoop ctx fam fuel text ms (i + 1)
      | _, _ => text

/-- Embeds `TagProcessor._process_single_output_tag` for one family. -/
def «_process_single_output_tag» (ctx : TagContext) (fam : OCFam)
    (text : List Seg) : List Seg :=
  let ms := findMatches fam text
  if ms = [] then text
  else ocLoop ctx fam ((text.length + 1) * (text.length + 1)) text ms 0

/-- The nine families in the order `output_control_patterns` lists them. -/
def ocFamList : List OCFam :=
  [.«면책», .«감액있음», .«비갱신», .«갱신», .«감액한번», .«감액두번»,
    .«진단확정», .«자동갱신형», .«독립특약»]

/-- Embeds `TagProcessor._process_output_control_tags` (`tag_processor.py:120-129`):
process each family's pairs in turn. -/
def «_process_output_control_tags» (ctx : TagContext) (text : List Seg) :
    List Seg :=
  ocFamList.foldl (fun t fam => «_process_single_output_tag» ctx fam t) text

/-- Embeds `TagProcessor._replace_단체` (`tag_processor.py:244-252`). -/
def «_replace_단체» (loader : Option (List RefRow)) (ctx : TagContext)
    (n : Option Nat) : String :=
  let nStr := match n with | some v => toString v | none => "1"
  let «코드명» := "\x7b단체" ++ nStr ++ "\x7d"
  let app : Int := if ctx.«단체» > 0 then 1 else 0
  «_lookup_참조» loader «코드명» (some "단체") (some app)

/-- Embeds `TagProcessor._replace_감액` (`tag_processor.py:254-261`). -/
def «_replace_감액» (loader : Option (List RefRow)) (ctx : TagContext)
    (n : Option Nat) : String :=
  let nStr := match n with | some v => toString v | none => "1"
  let «코드명» := "\x7b감액" ++ nStr ++ "\x7d"
  let app : Int := if ctx.«감액» > 0 then 1 else 0
  «_lookup_참조» loader «코드명» (some "감액") (some app)

/-- Embeds `TagProcessor._replace_감액2` (`tag_processor.py:263-271`); the captured
`N` is read but the lookup always uses the bare `{감액2}` literal. -/
def «_replace_감액2» (loader : Option (List RefRow)) (ctx : TagContext)
    (_n : Nat) : String :=
  let app : Int := if ctx.«감액» > 0 then 1 else 0
  «_lookup_참조» loader "\x7b감액2\x7d" (some "감액") (some app)

/-- Embeds `TagProcessor._replace_연장형` (`tag_processor.py:273-278`). -/
def «_replace_연장형» (loader : Option (List RefRow)) (ctx : TagContext)
    (n : Option Nat) : String :=
  let «코드명» := match n with
    | some v => "\x7b연장형" ++ toString v ++ "\x7d"
    | none => "\x7b연장형\x7d"
  let app : Int := if ctx.«연장형» > 0 then 1 else 0
  «_lookup_참조» loader «코드명» (some "연장형") (some app)

/-- Embeds `TagProcessor._replace_부모` (`tag_processor.py:280-285`). -/
def «_replace_부모» (loader : Option (List RefRow)) (ctx : TagContext)
    (n : Option Nat) : String :=
  let «코드명» := match n with
    | some v => "\x7b부모" ++ toString v ++ "\x7d"
    | none => "\x7b부모\x7d"
  let app : Int := if ctx.«부모» > 0 then 1 else 0
  «_lookup_참조» loader «코드명» (some "부모") (some app)

/-- Embeds `TagProcessor._replace_예약가입` (`tag_processor.py:287-292`). -/
def «_replace_예약가입» (loader : Option (List RefRow)) (ctx : TagContext)
    (n : Option Nat) : String :=
  let «코드명» := match n with
    | some v => "\x7b예약가입" ++ toString v ++ "\x7d"
    | none => "\x7b예약가입\x7d"
  let app : Int := if ctx.«예약가입연령» > 0 then 1 else 0
  «_lookup_참조» loader «코드명» (some "예약가입연령") (some app)

/-- Embeds `TagProcessor._replace_진단확정` (`tag_processor.py:301-308`). -/
def «_replace_진단확정» (loader : Option (List RefRow)) (ctx : TagContext)
    (n : Nat) : String :=
  let «코드명» := "\x7b진단확정" ++ toString n ++ "\x7d"
  let app : Int := if ctx.«진단확정» > 0 then 1 else 0
  «_lookup_참조» loader «코드명» (some "진단확정") (some app)

/-- Embeds `TagProcessor._replace_세부보장` (`tag_processor.py:310-324`): the `N`-th
(1-based) sub-coverage display name wrapped in corner brackets; an empty name
or an index at/after the list length yields `""`; `N = 0` indexes the last
element (Python `[-1]`), an `IndexError` on an empty list. -/
def «_replace_세부보장» (ctx : TagContext) (n : Nat) : Except PyErr String :=
  let idx : Int := (n : Int) - 1
  if idx < (ctx.«세부보장명_list».length : Int) then
    match pyGet ctx.«세부보장명_list» idx with
    | none => .error .indexError
    | some name =>
        if name ≠ "" then .ok ("「" ++ name ++ "」") else .ok ""
  else .ok ""

/-- Embeds `TagProcessor._replace_보통약관_해약환급금` (`tag_processor.py:294-299`). -/
def «_replace_보통약관_해약환급금» (loader : Option (List RefRow)) : String :=
  «_lookup_참조» loader "\x7b보통약관 해약환급금\x7d" none none

/-- One substitution pattern of the `substitution_patterns` dict. -/
inductive SubPat where
  | star (fam : SubFamStar)
  | plus (fam : SubFamPlus)
  | plain
  deriving DecidableEq, Repr

/-- The patterns in the dict's insertion order (`tag_processor.py:65-75`). -/
def subPatList : List SubPat :=
  [.star .«단체», .star .«감액», .plus .«감액2», .star .«연장형», .star .«부모»,
    .star .«예약가입», .plus .«진단확정», .plus .«세부보장», .plain]

/-- Dispatch to the `(\d*)`-family handlers. -/
def subHandlerStar (loader : Option (List RefRow)) (ctx : TagContext) :
    SubFamStar → Option Nat → String
  | .«단체», n => «_replace_단체» loader ctx n
  | .«감액», n => «_replace_감액» loader ctx n
  | .«연장형», n => «_replace_연장형» loader ctx n
  | .«부모», n => «_replace_부모» loader ctx n
  | .«예약가입», n => «_replace_예약가입» loader ctx n

/-- Dispatch to the mandatory-digit handlers. -/
def subHandlerPlus (loader : Option (List RefRow)) (ctx : TagContext) :
    SubFamPlus → Nat → Except PyErr String
  | .«감액2», n => .ok («_replace_감액2» loader ctx n)
  | .«진단확정», n => .ok («_replace_진단확정» loader ctx n)
  | .«세부보장», n => «_replace_세부보장» ctx n

/-- The effect of one `re.sub(pattern, handler, text)` on one segment:
segments of the pattern's family become the handler's replacement text. -/
def subOne (loader : Option (List RefRow)) (ctx : TagContext) (pat : SubPat) :
    Seg → Except PyErr Seg
  | .subtagN f n =>
      match pat with
      | .star f' =>
          if f' = f then .ok (.txt (subHandlerStar loader ctx f n))
          else .ok (.subtagN f n)
      | _ => .ok (.subtagN f n)
  | .subtagD f n =>
      match pat with
      | .plus f' =>
          if f' = f then (subHandlerPlus loader ctx f n).map .txt
          else .ok (.subtagD f n)
      | _ => .ok (.subtagD f n)
  | .subtagPlain =>
      match pat with
      | .plain => .ok (.txt («_replace_보통약관_해약환급금» loader))
      | _ => .ok .subtagPlain
  | s => .ok s

/-- Embeds `TagProcessor._process_substitution_tags` (`tag_processor.py:230-234`):
apply each pattern's `re.sub` over the whole text, in dict order; an
exception raised by a handler propagates. -/
def «_process_substitution_tags» (loader : Option (List RefRow))
    (ctx : TagContext) (text : List Seg) : Except PyErr (List Seg) :=
  subPatList.foldlM (fun t pat => t.mapM (subOne loader ctx pat)) text

/-- The two `pgm_patterns` in dict order. -/
inductive PgmPat where
  | «감액기간»
  | «지급률»
  deriving DecidableEq, Repr

/-- The effect of one computed-tag `re.sub` on one segment. -/
def pgmOne (ctx : TagContext) (pat : PgmPat) : Seg → Except PyErr Seg
  | .«감액기간tag» n k =>
      match pat with
      | .«감액기간» => («_replace_감액기간» ctx n k).map .txt
      | _ => .ok (.«감액기간tag» n k)
  | .«지급률tag» n m k op operand pct =>
      match pat with
      | .«지급률» => («_replace_지급률» ctx n m k op operand pct).map .txt
      | _ => .ok (.«지급률tag» n m k op operand pct)
  | s => .ok s

/-- Embeds `TagProcessor._process_pgm_tags` (`tag_processor.py:236-240`). -/
def «_process_pgm_tags» (ctx : TagContext) (text : List Seg) :
    Except PyErr (List Seg) :=
  [PgmPat.«감액기간», PgmPat.«지급률»].foldlM
    (fun t pat => t.mapM (pgmOne ctx pat)) text

/-- Embeds `TagProcessor.process_all_tags` (`tag_processor.py:98-118`): the three
passes in order; an exception raised by any handler propagates uncaught. -/
def process_all_tags (loader : Option (List RefRow)) (ctx : TagContext)
    (text : List Seg) : Except PyErr (List Seg) := do
  let t1 := «_process_output_control_tags» ctx text
  let t2 ← «_process_substitution_tags» loader ctx t1
  «_process_pgm_tags» ctx t2

/-- A workbook cell value. -/
inductive CellVal where
  | s (v : String)
  | f (v : PyFloat)
  deriving DecidableEq, Repr

/-- A workbook cell (`none` is Python `None`). -/
abbrev Cell := Option CellVal

/-- Python `str(cell)` (`str(None)` is the text `"None"`; float rendering is
abstracted, see the section comment). -/
def pyStrCell : Cell → String
  | none => "None"
  | some (.s v) => v
  | some (.f v) => s!"{v.num}/{v.den}f"

/-- Python truthiness of a cell (`None`, `""` and `0.0` are falsy). -/
def cellTruthy : Cell → Bool
  | none => false
  | some (.s v) => v ≠ ""
  | some (.f v) => v.truthy

/-- Python `float(val or 0)`: falsy cells count as `0`, strings are parsed
(`none` models the raised `ValueError` for unparsable text). -/
def floatOrZero : Cell → Option PyFloat
  | none => some ⟨0, 1⟩
  | some (.f v) => some (if v.truthy then v else ⟨0, 1⟩)
  | some (.s v) => if v = "" then some ⟨0, 1⟩ else parsePyFloat v

/-- Python `cell > 0`: `none` models the `TypeError` raised when the cell is
`None` or a string. -/
def cellGtZeroPy : Cell → Option Bool
  | some (.f v) => some v.pos
  | _ => none

/-- Python `cell > i` against an `int`; `none` models a `TypeError`. -/
def cellGtIntPy (c : Cell) (i : Int) : Option Bool :=
  match c with
  | some (.f v) => some (decide (v.num > i * v.den))
  | _ => none

/-- Python `int(cell)`; `none` models the raised `ValueError`/`TypeError`. -/
def pyIntOfCell : Cell → Option Int
  | some (.f v) => some v.trunc
  | some (.s v) => parsePyInt v
  | none => none

/-- Python `float(cell)`; `none` models the raised `ValueError`/`TypeError`. -/
def pyFloatOfCell : Cell → Option PyFloat
  | some (.f v) => some v
  | some (.s v) => parsePyFloat v
  | none => none

/-- The column locations discovered by `_find_column_locations`
(`print_dambo.py:362-437`); the verification takes them as given. -/
structure PgmLocs where
  «loc_확장번호» : Nat
  «loc_보장배수» : Nat
  «loc_세부담보순번» : Nat
  «loc_세부담보코드» : Nat
  «loc_지급률» : Nat
  «loc_면책기간» : Nat
  «loc_감액기간» : Nat
  «loc_감액기간2» : Nat
  «loc_감액비율» : Nat
  «loc_감액비율2» : Nat
  deriving DecidableEq, Repr

/-- The `PrintDambo` instance fields written by `_read_pgm_loop` and read by
`_revise_terms`; the constructor defaults are the `__init__` values
(`print_dambo.py:91-102`).  (`_read_pgm_보기납기`, `납입면제여부` and the
`세부보장명` update write only fields outside this projection.) -/
structure PgmState where
  m_point : Nat := 0
  «세부담보개수» : Int := 0
  «세부담보코드List» : List Cell := []
  min_riskrate_row : Nat := 0
  «is감액두번» : Bool := false
  «sum_면책» : PyFloat := ⟨0, 1⟩
  «sum_감액» : PyFloat := ⟨0, 1⟩
  «세부담보_bencoef» : List (List Cell) := []
  deriving DecidableEq, Repr

/-- The loaded workbook arrays and configuration read by `_read_pgm_loop`
for a general (non-independent-rider) coverage, i.e. `data.독립특약 == 0`. -/
structure PgmData where
  arr_pgm_main : List (List Cell)
  «arr_보장구조» : List (List Cell)
  «arr_보장배수» : List (List Cell)
  product_code : String
  deriving Repr

/-- The `M_Point` search of `_read_pgm_loop` (`print_dambo.py:453-477`,
`독립특약 == 0` branch): index of the first row whose column 0 is not `None`
and whose stripped column-1 text equals the coverage code; rows whose access
raises are skipped by the inner `except: continue`; `0` when nothing matches
(a match at physical index 0 is indistinguishable from "not found", exactly
as in the source). -/
def mPointSearchAux (damboCode : String) : List (List Cell) → Nat → Nat
  | [], _ => 0
  | row :: rest, idx =>
      match row.head? with
      | none => mPointSearchAux damboCode rest (idx + 1)
      | some c0 =>
          if c0 = none then mPointSearchAux damboCode rest (idx + 1)
          else
            let rowDambo :=
              match row.get? 1 with
              | some c => pyStrip (pyStrCell c)
              | none => ""
            if rowDambo = damboCode then idx
            else mPointSearchAux damboCode rest (idx + 1)

/-- Entry point of the `M_Point` search over the whole array. -/
def mPointSearch (arr : List (List Cell)) (damboCode : String) : Nat :=
  mPointSearchAux damboCode arr 0

/-- The `보장구조_lookup_key` construction (`print_dambo.py:485-490`,
`독립특약 == 0` branch). -/
def «build보장구조Key» (arrMain : List (List Cell)) (locs : PgmLocs)
    (productCode : String) (mPoint : Nat) : String :=
  match arrMain.get? mPoint with
  | some row =>
      match row.get? locs.«loc_확장번호» with
      | some c => productCode ++ "_" ++ pyStrCell c
      | none => ""
  | none => ""

/-- The mutable variables of the structure-row scan. -/
structure GujoScan where
  «개수» : Int
  minRow : Nat
  codeList : List Cell
  deriving DecidableEq, Repr

/-- The structure-row scan of `_read_pgm_loop` (`print_dambo.py:499-524`):
count the run of rows keyed by the lookup key (the count increments while
the embedded ordinal strictly increases), remember the first row of the run
and collect the sub-coverage code cells.  `break` ends the recursion;
exceptions inside the `try` body skip to the next row, keeping mutations
already made. -/
def scanGujoAux (key : String) (locSun locCode : Nat) :
    List (List Cell) → Nat → GujoScan → GujoScan
  | [], _, st => st
  | row :: rest, idx, st =>
      match row.head? with
      | none => scanGujoAux key locSun locCode rest (idx + 1) st
      | some c0 =>
          if pyStrip (pyStrCell c0) = key then
            let incr : Option Bool :=
              if st.«개수» ≤ 0 then some true
              else
                match row.get? locSun with
                | none => none
                | some c => cellGtIntPy c st.«개수»
            match incr with
            | none => scanGujoAux key locSun locCode rest (idx + 1) st
            | some false => st
            | some true =>
                let newCnt := st.«개수» + 1
                let minRow' := if newCnt = 0 then idx else st.minRow
                let codeList' :=
                  if newCnt ≥ 0 ∧ locCode < row.length then
                    st.codeList ++ [row.getD locCode none]
                  else st.codeList
                let st' : GujoScan := ⟨newCnt, minRow', codeList'⟩
                match rest with
                | [] => st'
                | nextRow :: _ =>
                    match nextRow.head? with
                    | none => scanGujoAux key locSun locCode rest (idx + 1) st'
                    | some nc0 =>
                        if pyStrip (pyStrCell nc0) ≠ key then st'
                        else scanGujoAux key locSun locCode rest (idx + 1) st'
          else scanGujoAux key locSun locCode rest (idx + 1) st

/-- Embeds `DataLoader.find_row_in_array`
(`Insurance_Terms_AutoGen/src/data_loader.py:418-439`): index of the first
row whose stripped column text equals the stripped search text, `-1`
otherwise. -/
def find_row_in_array (arr : List (List Cell)) (colIndex : Nat)
    (searchValue : Cell) : Int :=
  if arr = [] then -1
  else
    match arr.findIdx?
        (fun row =>
          pyStrip (pyStrCell (row.getD colIndex none)) =
            pyStrip (pyStrCell searchValue)) with
    | some i => (i : Int)
    | none => -1

/-- Embeds `DataLoader.get_array_row`
(`Insurance_Terms_AutoGen/src/data_loader.py:457-465`). -/
def get_array_row (arr : List (List Cell)) (searchValue : Cell)
    (colIndex : Nat) : Option (List Cell) :=
  let rowIdx := find_row_in_array arr colIndex searchValue
  if 0 ≤ rowIdx ∧ rowIdx < (arr.length : Int) then arr.get? rowIdx.toNat
  else none

/-- The `세부담보_bencoef` build of `_read_pgm_loop`
(`print_dambo.py:539-553`): one row per counted sub-coverage, `[0]` on any
miss, `[0] + <rate row>` otherwise. -/
def buildBencoef (arrGujo arrBaesu : List (List Cell)) (locBaesu : Nat)
    (minRow cnt : Nat) : List (List Cell) :=
  (List.range cnt).map fun i =>
    match arrGujo.get? (minRow + i + 1) with
    | none => [some (.f ⟨0, 1⟩)]
    | some row =>
        match row.get? locBaesu with
        | none => [some (.f ⟨0, 1⟩)]
        | some key2 =>
            match get_array_row arrBaesu key2 0 with
            | none => [some (.f ⟨0, 1⟩)]
            | some brow => (some (.f ⟨0, 1⟩)) :: brow

/-- The `sum_면책` / `sum_감액` accumulation (`print_dambo.py:555-568`): per
sub-coverage, add the guarded cells; a parse failure in the first add skips
the rest of that iteration but keeps earlier additions. -/
def sumLoop (locM locG : Nat) (benc : List (List Cell)) (cnt : Nat) :
    PyFloat × PyFloat :=
  (List.range cnt).foldl
    (fun (acc : PyFloat × PyFloat) i =>
      match benc.get? i with
      | none => acc
      | some row =>
          let p1 : Option PyFloat :=
            if locM < row.length then
              (floatOrZero (row.getD locM none)).map (fun v => acc.1.add v)
            else some acc.1
          match p1 with
          | none => acc
          | some s1 =>
              let p2 : Option PyFloat :=
                if locG < row.length then
                  (floatOrZero (row.getD locG none)).map (fun v => acc.2.add v)
                else some acc.2
              match p2 with
              | none => (s1, acc.2)
              | some s2 => (s1, s2))
    (⟨0, 1⟩, ⟨0, 1⟩)

/-- The per-row test of the `감액횟수` loop (`print_dambo.py:571-580`): both
the second reduction period and the second reduction percentage cells exist
and compare `> 0`; a `TypeError` from either comparison counts as a
non-match (`except: pass`). -/
def rowHasSecondReduction (loc2 locR2 : Nat) (row : List Cell) : Bool :=
  if loc2 < row.length ∧ locR2 < row.length then
    match cellGtZeroPy (row.getD loc2 none) with
    | some true =>
        match cellGtZeroPy (row.getD locR2 none) with
        | some true => true
        | _ => false
    | _ => false
  else false

/-- The `감액횟수` loop itself: `is감액두번` becomes true when any counted
sub-coverage row passes `rowHasSecondReduction` (the source `break` is the
short-circuit of `any`). -/
def «감액두번Loop» (loc2 locR2 : Nat) (benc : List (List Cell)) (cnt : Nat) :
    Bool :=
  (List.range cnt).any fun i =>
    match benc.get? i with
    | none => false
    | some row => rowHasSecondReduction loc2 locR2 row

/-- Embeds `PrintDambo._read_pgm_loop` (`print_dambo.py:439-619`, general-coverage
configuration `data.독립특약 == 0`), projected to the `PgmState` fields.
The initialization at the top of the source resets only `m_point`,
`세부담보개수`, `세부담보코드List`, `is감액두번` and `min_riskrate_row`;
when the anchor row is missing (`m_point == 0`) the function returns at
`print_dambo.py:479-482` with `sum_면책`, `sum_감액` and `세부담보_bencoef`
still holding the previous coverage's values. -/
def «_read_pgm_loop» (data : PgmData) (locs : PgmLocs) (st : PgmState)
    (damboCode : String) : PgmState :=
  let st0 : PgmState :=
    { st with m_point := 0, «세부담보개수» := -1, «세부담보코드List» := [],
              «is감액두번» := false, min_riskrate_row := 0 }
  let mp := mPointSearch data.arr_pgm_main damboCode
  if mp = 0 then st0
  else
    let key := «build보장구조Key» data.arr_pgm_main locs data.product_code mp
    let scan :=
      if key ≠ "" then
        scanGujoAux key locs.«loc_세부담보순번» locs.«loc_세부담보코드»
          data.«arr_보장구조» 0 ⟨-1, 0, []⟩
      else ⟨-1, 0, []⟩
    let cnt := scan.«개수»
    let benc :=
      if cnt > 0 then
        buildBencoef data.«arr_보장구조» data.«arr_보장배수»
          locs.«loc_보장배수» scan.minRow cnt.toNat
      else st0.«세부담보_bencoef»
    let sums := sumLoop locs.«loc_면책기간» locs.«loc_감액기간» benc cnt.toNat
    let dbl := «감액두번Loop» locs.«loc_감액기간2» locs.«loc_감액비율2» benc cnt.toNat
    { st0 with m_point := mp, «세부담보개수» := cnt,
               min_riskrate_row := scan.minRow,
               «세부담보코드List» := scan.codeList,
               «세부담보_bencoef» := benc,
               «sum_면책» := sums.1, «sum_감액» := sums.2,
               «is감액두번» := dbl }

/-- The `감액기간_list` build of `_revise_terms` (`print_dambo.py:950-966`):
per `bencoef` row, collect the (guarded, truthy, `int()`-convertible) first
and second reduction-period cells; only non-empty lists are appended. -/
def «build감액기간List» (loc1 loc2 : Nat) (benc : List (List Cell)) :
    List (List Int) :=
  benc.foldl
    (fun acc row =>
      let l1 : List Int :=
        if loc1 < row.length ∧ cellTruthy (row.getD loc1 none) then
          match pyIntOfCell (row.getD loc1 none) with
          | some v => [v]
          | none => []
        else []
      let l2 : List Int :=
        if loc2 < row.length ∧ cellTruthy (row.getD loc2 none) then
          match pyIntOfCell (row.getD loc2 none) with
          | some v => [v]
          | none => []
        else []
      let lst := l1 ++ l2
      if lst ≠ [] then acc ++ [lst] else acc)
    []

/-- The `지급률_data` build of `_revise_terms` (`print_dambo.py:968-979`):
one singleton payout list per `bencoef` row, defaulting to `100.0` on a
missing/falsy/unparsable cell; keyed by the representative coverage code. -/
def «build지급률Data» (locRate : Nat) (benc : List (List Cell))
    («대표담보코드» : String) : List (String × List (List PyFloat)) :=
  if benc ≠ [] ∧ «대표담보코드» ≠ "" then
    [(«대표담보코드»,
      benc.map fun row =>
        if locRate < row.length ∧ cellTruthy (row.getD locRate none) then
          match pyFloatOfCell (row.getD locRate none) with
          | some v => [v]
          | none => [⟨100, 1⟩]
        else [⟨100, 1⟩])]
  else []

/-- Python `s.split(',')` with per-part `strip()`, as in
`create_tag_context_from_dambo_att` (`tag_processor.py:831-832`). -/
def pySplitStrip (s : String) : List String :=
  (s.splitOn ",").map pyStrip

/-- The `TagContext` handed to the tag expander by `_revise_terms`
(`print_dambo.py:921-984` together with
`create_tag_context_from_dambo_att`, `tag_processor.py:813-858`), projected
to the fields derived from the resolver state: `면책`/`감액` from the sums,
`감액한번 = not is감액두번`, `감액두번 = is감액두번`, `비갱신` from the
product's `자동갱신형`, and the period/payout structures from
`세부담보_bencoef`. -/
def «_revise_terms_context» (st : PgmState) (locs : PgmLocs)
    («대표담보코드» : String) («자동갱신형» «독립특약» : Int) : TagContext :=
  { «대표담보코드» := «대표담보코드»,
    «대표담보코드_list» :=
      if «대표담보코드» ≠ "" then pySplitStrip «대표담보코드» else [],
    «면책» := if st.«sum_면책».pos then 1 else 0,
    «감액» := if st.«sum_감액».pos then 1 else 0,
    «감액한번» := !st.«is감액두번»,
    «감액두번» := st.«is감액두번»,
    «독립특약» := «독립특약»,
    «비갱신» := if «자동갱신형» = 0 then 1 else 0,
    «자동갱신형» := «자동갱신형»,
    «감액기간_list» := «build감액기간List» locs.«loc_감액기간» locs.«loc_감액기간2»
      st.«세부담보_bencoef»,
    «지급률_data» := «build지급률Data» locs.«loc_지급률» st.«세부담보_bencoef»
      «대표담보코드» }

/-- One comment block of a rider source document. -/
structure SrcComment where
  codes : List String
  name : String
  content : String
  deriving DecidableEq, Repr

/-- The assembler state threaded through the coverage loop:
`copied_list_strings` (`print_dambo.py:114`), the insertion log, and the
coverage codes whose span was handed to the tag processor. -/
structure AsmState where
  copied : List String := []
  inserted : List String := []
  revised : List String := []
  deriving DecidableEq, Repr

/-- Embeds `PrintDambo._copy_terms` (`print_dambo.py:726-855`): find the first
comment listing the representative code; if its rider label was already
copied, return nothing (`print_dambo.py:773-776`); otherwise record the
label, and if the copy range is non-empty and a paste location exists,
insert the content and return it. -/
def «_copy_terms» (src : List SrcComment) («대표담보코드» : String)
    (category : String) (pasteOk : String → Bool) (st : AsmState) :
    Option String × AsmState :=
  match src with
  | [] => (none, st)
  | c :: rest =>
      if «대표담보코드» ∈ c.codes then
        if c.name ∈ st.copied then (none, st)
        else
          let st' := { st with copied := st.copied ++ [c.name] }
          if c.content ≠ "" then
            if pasteOk category then
              (some c.content, { st' with inserted := st'.inserted ++ [c.content] })
            else (none, st')
          else (none, st')
      else «_copy_terms» rest «대표담보코드» category pasteOk st

/-- One iteration of the Phase-1 coverage loop (`print_dambo.py:300-307`):
copy the rider content, and run `_revise_terms` (tag expansion) only when
`_copy_terms` returned a pasted range.  A coverage is
`(담보코드, 대표담보코드, category)`. -/
def executeStep (src : List SrcComment) (pasteOk : String → Bool)
    (st : AsmState) (cov : String × String × String) : AsmState :=
  let (r, st') := «_copy_terms» src cov.2.1 cov.2.2 pasteOk st
  match r with
  | some _ => { st' with revised := st'.revised ++ [cov.1] }
  | none => st'

/-- The Phase-1 loop over the coverage worklist (`print_dambo.py:218-311`). -/
def executeRun (src : List SrcComment) (pasteOk : String → Bool)
    (covs : List (String × String × String)) : AsmState :=
  covs.foldl (executeStep src pasteOk) {}

/-- First comment block listing a representative code — the block
`_copy_terms` acts on. -/
def findBlock (src : List SrcComment) («대표담보코드» : String) :
    Option SrcComment :=
  src.find? (fun c => decide («대표담보코드» ∈ c.codes))

/-- The numbered-tag branch of `process_numbered_tags` inside
`TagProcessor._build_replacement_dict` (`tag_processor.py:736-759`): the
replacement recorded for a numbered tag `{BASEn}` found in the document.
The source guards its bare-literal fallback with `if val is not None`, but
`_lookup_참조` has return type `str` and never returns `None`, so the first
lookup's value — `""` when the numbered literal has no reference row — is
always recorded and the fallback at `tag_processor.py:751-754` is
unreachable; this definition is that reachable part. -/
def numberedTagReplacement (loader : Option (List RefRow))
    (tagBase attrName : String) (contextVal : Int) (n : Nat) : String :=
  let app : Int := if contextVal > 0 then 1 else 0
  let tagNum := "\x7b" ++ tagBase ++ toString n ++ "\x7d"
  let val := «_lookup_참조» loader tagNum (some attrName) (some app)
  val

instance {ε α : Type} [DecidableEq ε] [DecidableEq α] :
    DecidableEq (Except ε α)
  | .ok x, .ok y =>
      if h : x = y then .isTrue (by rw [h])
      else .isFalse (fun hc => by cases hc; exact h rfl)
  | .error x, .error y =>
      if h : x = y then .isTrue (by rw [h])
      else .isFalse (fun hc => by cases hc; exact h rfl)
  | .ok _, .error _ => .isFalse (fun hc => by cases hc)
  | .error _, .ok _ => .isFalse (fun hc => by cases hc)

/-- Concrete context with ascending-sorted reduction periods `[180, 365]` for representative
ordinal 1: the concrete context of the C2 scenario. -/
def ctxC2 : TagContext := { «감액기간_list» := [[180, 365]] }

/-- Payout context of the C7 scenario: representative code list `["A001"]`
and payout matrix `[[50.0, 100.0]]` for that code. -/
def ctxC7 : TagContext :=
  { «대표담보코드_list» := ["A001"],
    «지급률_data» := [("A001", [[⟨50, 1⟩, ⟨100, 1⟩]])] }

/-- Text containing the computed tag `{지급률1-1-1}/0` (ordinals resolving
to an existing payout entry of `ctxC7`) and ordinary text around it. -/
def textC9 : List Seg :=
  [.txt "지급률은 ", .«지급률tag» 1 1 1 (some .div) (some "0") (some "%"),
    .txt " 입니다."]

/-- Reference table with a row for the bare literal `{단체}` only (family
`단체`, application type `1`), and no row for the numbered `{단체1}`. -/
def rowsC3 : List RefRow :=
  [⟨"\x7b단체\x7d", "단체", "1", "이 보험은 단체보험으로 운영됩니다"⟩]

/-- Column locations for the C4 run (consistent with the concrete workbook
below; remember that `세부담보_bencoef` rows are `[0] + <rate row>`, so a
bencoef index `j` reads rate-row column `j - 1`). -/
def locsC4 : PgmLocs :=
  { «loc_확장번호» := 2, «loc_보장배수» := 3, «loc_세부담보순번» := 1,
    «loc_세부담보코드» := 2, «loc_지급률» := 7, «loc_면책기간» := 2,
    «loc_감액기간» := 3, «loc_감액기간2» := 4, «loc_감액비율» := 5,
    «loc_감액비율2» := 6 }

/-- The C4 workbook: coverage `A001` is on the anchor (PGM main) sheet with
expansion number `7`; its structure run `P_7` has one sub-coverage whose
rate row `B2` carries waiting period `90` and reduction period `180`.
Coverage `ZZZZ` appears nowhere on the anchor sheet. -/
def dataC4 : PgmData :=
  { arr_pgm_main :=
      [[some (.s "MainHdr"), some (.s "담보코드"), some (.s "ExpansionNumber")],
       [some (.s "r"), some (.s "A001"), some (.s "7")]],
    «arr_보장구조» :=
      [[some (.s "Key"), some (.s "세부담보순번"), some (.s "세부담보코드"),
        some (.s "보장배수")],
       [some (.s "P_7"), some (.f ⟨1, 1⟩), some (.s "SC1"), some (.s "B1")],
       [some (.s "P_7"), some (.f ⟨2, 1⟩), some (.s "SC2"), some (.s "B2")]],
    «arr_보장배수» :=
      [[some (.s "보장배수키"), some (.s "h1"), some (.s "h2"), some (.s "h3"),
        some (.s "h4"), some (.s "h5"), some (.s "h6")],
       [some (.s "B2"), some (.f ⟨90, 1⟩), some (.f ⟨180, 1⟩),
        some (.f ⟨0, 1⟩), some (.f ⟨50, 1⟩), some (.f ⟨0, 1⟩),
        some (.f ⟨100, 1⟩)]],
    product_code := "P" }

/-- A reference row matching a requested tag literal and attribute family
(both compared stripped, as the lookups do). -/
def refMatches (q fam : String) (r : RefRow) : Bool :=
  decide (pyStrip r.«코드명» = pyStrip q) &&
    decide (pyStrip r.«담보속성» = pyStrip fam)

/-- Reference table whose only row is `{단체1}` with a blank
application-type cell. -/
def rowsC6 : List RefRow := [⟨"\x7b단체1\x7d", "단체", "", "미사용문구"⟩]

/-- Rider source for the C5 scenario: one special-terms block labelled
`교통상해후유장해` listing two representative codes, closed by an end
marker. -/
def srcC5 : List SrcComment :=
  [⟨["R1", "R2"], "교통상해후유장해", "특별약관 본문"⟩, ⟨[], "끝", ""⟩]

/-- The C5 worklist: two coverages whose representative codes both map to
the block labelled `교통상해후유장해`. -/
def covsC5 : List (String × String × String) :=
  [("C1cov", "R1", "상해"), ("C2cov", "R2", "상해")]

/-- A text fragment containing no output-control tag of any family. -/
def noOCtags : List Seg → Bool
  | [] => true
  | .octag _ _ _ :: _ => false
  | _ :: rest => noOCtags rest

/-- Context for the C1 witness: the `면책` attribute holds. -/
def ctxC1w : TagContext := { «면책» := 1 }

/-- C2 counterexample: on the ascending list `[180, 365]`, `{감액기간1-1}`
does not resolve to `"180일"` — 180 days is divisible by 30, so
`_format_기간` renders it as months. -/
theorem C2_counterexample :
    «_replace_감액기간» ctxC2 1 1 ≠ Except.ok "180일" := by decide

/-- C2 (amended): for reduction-period list `[180, 365]` at ordinal `N = 1`,
`{감액기간1-1}` (K=1) resolves to `"6개월"` (180 is divisible by 30 and the
formatter prefers months) and `{감액기간1-2}` (K=2) resolves to `"1년"`,
per `_replace_감액기간` and `_format_기간`. -/
theorem C2_period_scenario :
    «_replace_감액기간» ctxC2 1 1 = Except.ok "6개월" ∧
      «_replace_감액기간» ctxC2 1 2 = Except.ok "1년" := ⟨rfl, rfl⟩

/-- C7: the tag `{지급률1-1-2}*2%` on payout list `[50.0, 100.0]` resolves
to `"200%"`: K=2 selects `100.0` from the ascending-sorted list, the `*2`
modifier multiplies before formatting, the integral result `200` prints
without a decimal point, and the literal `%` of the tag is preserved. -/
theorem C7_rate_arithmetic_scenario :
    «_replace_지급률» ctxC7 1 1 2 (some .mul) (some "2") (some "%") =
      Except.ok "200%" := rfl

/-- C9: `process_all_tags` on a text containing `{지급률1-1-1}/0` raises an
uncaught `ZeroDivisionError` instead of returning a result — the arithmetic
block catches only `ValueError`, so a zero divisor escapes all three
passes. -/
theorem C9_division_by_zero_uncaught :
    process_all_tags none ctxC7 textC9 = Except.error .zeroDivisionError := rfl

/-- C10: `_format_기간` maps a reduction period of exactly `0` days to the
empty string — the computed tag is replaced by nothing — and not to the
`"0일"` that the days-under-30 rule would produce. -/
theorem C10_zero_period_formats_empty :
    «_format_기간» 0 = "" ∧ «_format_기간» 0 ≠ "0일" := by
  exact ⟨rfl, by decide⟩

/-- C3: with a reference row only for the bare `{단체}` literal, the
numbered tag `{단체1}` is recorded as `""` (deleted) by the replacement
builder even though the bare-literal lookup resolves to the row's phrase:
`_lookup_참조` returns `""` (never `None`) for "not found", so the
`if val is not None` fallback of `_build_replacement_dict` never fires. -/
theorem C3_fallback_unreachable :
    numberedTagReplacement (some rowsC3) "단체" "단체" 1 1 = "" ∧
      «_lookup_참조» (some rowsC3) "\x7b단체\x7d" (some "단체") (some 1) =
        "이 보험은 단체보험으로 운영됩니다" := ⟨rfl, rfl⟩

/-- C4: resolving coverage `ZZZZ`, which is absent from the anchor table,
directly after coverage `A001` does not yield a zero-valued bundle: the
early return of `_read_pgm_loop` leaves `sum_면책`, `sum_감액` and
`세부담보_bencoef` holding `A001`'s values, so the `TagContext` handed to
the expander for `ZZZZ` has `면책 = 1`, `감액 = 1` and a non-empty stale
reduction-period list — while the same lookup from a fresh state yields
`면책 = 0`.  (The conjunct over `arr_pgm_main` checks that no anchor row
carries `ZZZZ`.) -/
theorem C4_stale_state_on_missing_anchor :
    (dataC4.arr_pgm_main.all
      (fun row => ((row.get? 1).map (fun c => pyStrip (pyStrCell c))) ≠
        some "ZZZZ")) = true ∧
    («_revise_terms_context»
        («_read_pgm_loop» dataC4 locsC4
          («_read_pgm_loop» dataC4 locsC4 {} "A001") "ZZZZ")
        locsC4 "RC01" 0 0).«면책» = 1 ∧
    («_revise_terms_context»
        («_read_pgm_loop» dataC4 locsC4
          («_read_pgm_loop» dataC4 locsC4 {} "A001") "ZZZZ")
        locsC4 "RC01" 0 0).«감액» = 1 ∧
    («_revise_terms_context»
        («_read_pgm_loop» dataC4 locsC4
          («_read_pgm_loop» dataC4 locsC4 {} "A001") "ZZZZ")
        locsC4 "RC01" 0 0).«감액기간_list» = [[180]] ∧
    («_revise_terms_context» («_read_pgm_loop» dataC4 locsC4 {} "ZZZZ")
        locsC4 "RC01" 0 0).«면책» = 0 := by
  refine ⟨by decide, rfl, rfl, by decide, rfl⟩

theorem find260209Loop_blank (q fam : String) (row : RefRow) (v : Int)
    (hblank : pyStrip row.«적용구분» = "") :
    ∀ rows : List RefRow,
      (rows.filter (refMatches q fam)).head? = some row →
      «find_참조문구Loop260209» q (some fam) (some v) rows = "" := by
  intro rows
  induction rows with
  | nil => intro hfirst; simp at hfirst
  | cons r rest ih =>
      intro hfirst
      by_cases hk : pyStrip r.«코드명» = pyStrip q
      · by_cases ha : pyStrip r.«담보속성» = pyStrip fam
        · have hp : refMatches q fam r = true := by
            simp [refMatches, hk, ha]
          rw [List.filter_cons_of_pos hp] at hfirst
          have hrow : r = row := by simpa using hfirst
          subst hrow
          simp [«find_참조문구Loop260209», hk, ha, hblank]
        · have hp : refMatches q fam r = false := by
            simp [refMatches, ha]
          rw [List.filter_cons_of_neg (by simp [hp])] at hfirst
          have hrec := ih hfirst
          simp only [«find_참조문구Loop260209», if_pos hk]
          have hmm : (pyStrip r.«담보속성» != pyStrip fam) = true := by
            simpa using ha
          simp [hmm, hrec]
      · have hp : refMatches q fam r = false := by
          simp [refMatches, hk]
        rw [List.filter_cons_of_neg (by simp [hp])] at hfirst
        have hrec := ih hfirst
        simp [«find_참조문구Loop260209», hk, hrec]

theorem findIndexedLoop_blank (q fam : String) (row : RefRow) (v : Int)
    (hq : pyStrip q ≠ "") (hblank : pyStrip row.«적용구분» = "") :
    ∀ rows : List RefRow,
      (rows.filter (refMatches q fam)).head? = some row →
      «find_참조문구Loop» (some fam) (some v) («참조entries» rows (pyStrip q)) = "" := by
  intro rows
  induction rows with
  | nil => intro hfirst; simp at hfirst
  | cons r rest ih =>
      intro hfirst
      by_cases hk : pyStrip r.«코드명» = pyStrip q
      · have hne : pyStrip r.«코드명» ≠ "" := by rw [hk]; exact hq
        have hkeep : «참조entries» (r :: rest) (pyStrip q) =
            (pyStrip r.«담보속성», pyStrip r.«적용구분», r.«약관문구») ::
              «참조entries» rest (pyStrip q) := by
          simp [«참조entries», List.filter_cons, hk, hne, hq]
        by_cases ha : pyStrip r.«담보속성» = pyStrip fam
        · have hp : refMatches q fam r = true := by simp [refMatches, hk, ha]
          rw [List.filter_cons_of_pos hp] at hfirst
          have hrow : r = row := by simpa using hfirst
          subst hrow
          rw [hkeep]
          simp [«find_참조문구Loop», ha, hblank]
        · have hp : refMatches q fam r = false := by simp [refMatches, ha]
          rw [List.filter_cons_of_neg (by simp [hp])] at hfirst
          have hrec := ih hfirst
          rw [hkeep]
          have hmm : (pyStrip r.«담보속성» != pyStrip fam) = true := by
            simpa using ha
          simp [«find_참조문구Loop», hmm, hrec]
      · have hp : refMatches q fam r = false := by simp [refMatches, hk]
        rw [List.filter_cons_of_neg (by simp [hp])] at hfirst
        have hskip : «참조entries» (r :: rest) (pyStrip q) =
            «참조entries» rest (pyStrip q) := by
          simp [«참조entries», List.filter_cons, hk]
        rw [hskip]
        exact ih hfirst

/-- C6: whenever the first reference row matching the requested tag literal
and attribute family has a blank application-type cell, both `find_참조문구`
variants return the empty string — the tag is deleted unconditionally,
whatever application-type value is requested. -/
theorem C6_blank_apptype_deletes_unconditionally (rows : List RefRow)
    (q fam : String) (row : RefRow) (v : Int)
    (hq : pyStrip q ≠ "")
    (hfirst : (rows.filter (refMatches q fam)).head? = some row)
    (hblank : pyStrip row.«적용구분» = "") :
    «find_참조문구» rows q (some fam) (some v) = "" ∧
      «find_참조문구260209» rows q (some fam) (some v) = "" := by
  constructor
  · by_cases h : «참조entries» rows (pyStrip q) = []
    · simp [«find_참조문구», h]
    · simp only [«find_참조문구», if_neg h]
      exact findIndexedLoop_blank q fam row v hq hblank rows hfirst
  · exact find260209Loop_blank q fam row v hblank rows hfirst

/-- C6 witness: on the concrete `{단체1}` table, the lookup is empty for
both application-type values `0` and `1`. -/
theorem C6_blank_apptype_witness :
    «find_참조문구» rowsC6 "\x7b단체1\x7d" (some "단체") (some 0) = "" ∧
      «find_참조문구260209» rowsC6 "\x7b단체1\x7d" (some "단체") (some 1) = "" :=
  ⟨(C6_blank_apptype_deletes_unconditionally rowsC6 "\x7b단체1\x7d" "단체"
      ⟨"\x7b단체1\x7d", "단체", "", "미사용문구"⟩ 0 (by decide) (by decide)
      (by decide)).1,
    (C6_blank_apptype_deletes_unconditionally rowsC6 "\x7b단체1\x7d" "단체"
      ⟨"\x7b단체1\x7d", "단체", "", "미사용문구"⟩ 1 (by decide) (by decide)
      (by decide)).2⟩

theorem «감액두번Loop_iff» (loc2 locR2 : Nat) (benc : List (List Cell))
    (cnt : Nat) :
    «감액두번Loop» loc2 locR2 benc cnt = true ↔
      ∃ i, i < cnt ∧ ∃ row, benc.get? i = some row ∧
        rowHasSecondReduction loc2 locR2 row = true := by
  simp only [«감액두번Loop», List.any_eq_true, List.mem_range]
  constructor
  · rintro ⟨i, hi, h⟩
    refine ⟨i, hi, ?_⟩
    cases hrow : benc.get? i with
    | none => rw [hrow] at h; simp at h
    | some row => rw [hrow] at h; exact ⟨row, rfl, h⟩
  · rintro ⟨i, hi, row, hrow, h⟩
    exact ⟨i, hi, by rw [hrow]; exact h⟩

theorem «gav_감액한번_eq» (n : Nat) (ctx : TagContext) :
    «_get_attribute_value» "감액한번" n ctx =
      (ctx.«감액한번» && !ctx.«감액두번») := rfl

theorem «gav_감액두번_eq» (n : Nat) (ctx : TagContext) :
    «_get_attribute_value» "감액두번" n ctx = ctx.«감액두번» := rfl

/-- C8: after `_read_pgm_loop`, the reduced-twice flag is true iff some
counted `세부담보_bencoef` row (a sub-coverage rate row) has both its second
reduction period and second reduction percentage cells present and `> 0`;
the `TagContext` handed to the expander has `감액한번 = ¬감액두번`, and the
two output-control attributes can never both hold. -/
theorem C8_reduced_twice_iff_and_exclusive (data : PgmData) (locs : PgmLocs)
    (st : PgmState) (code rep : String) («자동갱신형» «독립특약» : Int) :
    ((«_read_pgm_loop» data locs st code).«is감액두번» = true ↔
      ∃ i, i < («_read_pgm_loop» data locs st code).«세부담보개수».toNat ∧
        ∃ row, («_read_pgm_loop» data locs st code).«세부담보_bencoef».get? i =
            some row ∧
          rowHasSecondReduction locs.«loc_감액기간2» locs.«loc_감액비율2» row =
            true) ∧
    («_revise_terms_context» («_read_pgm_loop» data locs st code) locs rep
        «자동갱신형» «독립특약»).«감액한번» =
      !(«_read_pgm_loop» data locs st code).«is감액두번» ∧
    («_revise_terms_context» («_read_pgm_loop» data locs st code) locs rep
        «자동갱신형» «독립특약»).«감액두번» =
      («_read_pgm_loop» data locs st code).«is감액두번» ∧
    ¬(«_get_attribute_value» "감액한번" 1
          («_revise_terms_context» («_read_pgm_loop» data locs st code) locs rep
            «자동갱신형» «독립특약») = true ∧
      «_get_attribute_value» "감액두번" 1
          («_revise_terms_context» («_read_pgm_loop» data locs st code) locs rep
            «자동갱신형» «독립특약») = true) := by
  refine ⟨?_, rfl, rfl, ?_⟩
  · unfold «_read_pgm_loop»
    by_cases hmp : mPointSearch data.arr_pgm_main code = 0
    · simp only [hmp, if_pos rfl]
      constructor
      · intro h; simp at h
      · rintro ⟨i, hi, -⟩
        simp at hi
    · rw [if_neg hmp]
      exact «감액두번Loop_iff» _ _ _ _
  · rw [«gav_감액한번_eq», «gav_감액두번_eq»]
    rintro ⟨h1, h2⟩
    have hb2 : («_revise_terms_context» («_read_pgm_loop» data locs st code) locs
        rep «자동갱신형» «독립특약»).«감액두번» =
        («_read_pgm_loop» data locs st code).«is감액두번» := rfl
    rw [hb2] at h1 h2
    rw [h2] at h1
    simp at h1

/-- C5 counterexample: on the two-coverage run, the rider content is
inserted exactly once, but the second coverage's tag expansion does *not*
run — `_copy_terms` returns nothing for it (`이미 복사됨`) and `execute`
calls `_revise_terms` only when a pasted range was returned, so only the
first coverage appears in the revised log. -/
theorem C5_counterexample :
    (executeRun srcC5 (fun _ => true) covsC5).inserted = ["특별약관 본문"] ∧
      (executeRun srcC5 (fun _ => true) covsC5).revised = ["C1cov"] ∧
      "C2cov" ∉ (executeRun srcC5 (fun _ => true) covsC5).revised := by
  refine ⟨rfl, rfl, by decide⟩

theorem copy_terms_found (src : List SrcComment) (rep cat : String)
    (pasteOk : String → Bool) (st : AsmState) (b : SrcComment)
    (h : findBlock src rep = some b) :
    «_copy_terms» src rep cat pasteOk st =
      if b.name ∈ st.copied then (none, st)
      else
        let st' := { st with copied := st.copied ++ [b.name] }
        if b.content ≠ "" then
          if pasteOk cat then
            (some b.content, { st' with inserted := st'.inserted ++ [b.content] })
          else (none, st')
        else (none, st') := by
  induction src with
  | nil => simp [findBlock] at h
  | cons c rest ih =>
      by_cases hc : rep ∈ c.codes
      · have hb : c = b := by
          simpa [findBlock, List.find?_cons_of_pos, hc] using h
        subst hb
        simp [«_copy_terms», hc]
      · have h' : findBlock rest rep = some b := by
          simpa [findBlock, List.find?_cons_of_neg, hc] using h
        simpa [«_copy_terms», hc] using ih h'

/-- C5 (amended): when two coverages' representative codes resolve to rider
blocks carrying the same label, the content is inserted exactly once (by
the first), and the second coverage is skipped entirely: no insertion, no
label re-recording, and no tag expansion for it. -/
theorem C5_duplicate_label_inserted_once_second_skipped
    (src : List SrcComment) (c1 c2 : String × String × String)
    (pasteOk : String → Bool) (st0 : AsmState) (b1 b2 : SrcComment)
    (h1 : findBlock src c1.2.1 = some b1)
    (h2 : findBlock src c2.2.1 = some b2)
    (hname : b2.name = b1.name)
    (hnew : b1.name ∉ st0.copied)
    (hcontent : b1.content ≠ "")
    (hpaste : pasteOk c1.2.2 = true) :
    (executeStep src pasteOk st0 c1).inserted =
        st0.inserted ++ [b1.content] ∧
      (executeStep src pasteOk (executeStep src pasteOk st0 c1) c2).inserted =
        (executeStep src pasteOk st0 c1).inserted ∧
      (executeStep src pasteOk (executeStep src pasteOk st0 c1) c2).copied =
        (executeStep src pasteOk st0 c1).copied ∧
      (executeStep src pasteOk (executeStep src pasteOk st0 c1) c2).revised =
        (executeStep src pasteOk st0 c1).revised := by
  have hstep1 : executeStep src pasteOk st0 c1 =
      { copied := st0.copied ++ [b1.name],
        inserted := st0.inserted ++ [b1.content],
        revised := st0.revised ++ [c1.1] } := by
    unfold executeStep
    rw [copy_terms_found src c1.2.1 c1.2.2 pasteOk st0 b1 h1]
    simp [hnew, hcontent, hpaste]
  have hmem : b2.name ∈
      ({ copied := st0.copied ++ [b1.name],
         inserted := st0.inserted ++ [b1.content],
         revised := st0.revised ++ [c1.1] } : AsmState).copied := by
    rw [hname]
    simp
  have hstep2 : executeStep src pasteOk
      { copied := st0.copied ++ [b1.name],
        inserted := st0.inserted ++ [b1.content],
        revised := st0.revised ++ [c1.1] } c2 =
      { copied := st0.copied ++ [b1.name],
        inserted := st0.inserted ++ [b1.content],
        revised := st0.revised ++ [c1.1] } := by
    unfold executeStep
    rw [copy_terms_found src c2.2.1 c2.2.2 pasteOk _ b2 h2]
    rw [if_pos hmem]
  refine ⟨by rw [hstep1], ?_, ?_, ?_⟩ <;> rw [hstep1, hstep2]

/-- C5 witness: the amended theorem applied to the concrete two-coverage
run above. -/
theorem C5_duplicate_label_witness :
    (executeStep srcC5 (fun _ => true) {} ("C1cov", "R1", "상해")).inserted =
        [] ++ ["특별약관 본문"] ∧
      (executeStep srcC5 (fun _ => true)
          (executeStep srcC5 (fun _ => true) {} ("C1cov", "R1", "상해"))
          ("C2cov", "R2", "상해")).inserted =
        (executeStep srcC5 (fun _ => true) {} ("C1cov", "R1", "상해")).inserted ∧
      (executeStep srcC5 (fun _ => true)
          (executeStep srcC5 (fun _ => true) {} ("C1cov", "R1", "상해"))
          ("C2cov", "R2", "상해")).copied =
        (executeStep srcC5 (fun _ => true) {} ("C1cov", "R1", "상해")).copied ∧
      (executeStep srcC5 (fun _ => true)
          (executeStep srcC5 (fun _ => true) {} ("C1cov", "R1", "상해"))
          ("C2cov", "R2", "상해")).revised =
        (executeStep srcC5 (fun _ => true) {} ("C1cov", "R1", "상해")).revised :=
  C5_duplicate_label_inserted_once_second_skipped srcC5
    ("C1cov", "R1", "상해") ("C2cov", "R2", "상해") (fun _ => true) {}
    ⟨["R1", "R2"], "교통상해후유장해", "특별약관 본문"⟩
    ⟨["R1", "R2"], "교통상해후유장해", "특별약관 본문"⟩
    (by decide) (by decide) rfl (by decide) (by decide) rfl

theorem findMatchesAux_of_noOC (fam : OCFam) (l : List Seg)
    (h : noOCtags l = true) : ∀ i, findMatchesAux fam l i = [] := by
  induction l with
  | nil => intro i; rfl
  | cons s rest ih =>
      intro i
      cases s with
      | txt v => exact ih (by simpa [noOCtags] using h) (i + 1)
      | octag f a b => simp [noOCtags] at h
      | subtagN f a => exact ih (by simpa [noOCtags] using h) (i + 1)
      | subtagD f a => exact ih (by simpa [noOCtags] using h) (i + 1)
      | subtagPlain => exact ih (by simpa [noOCtags] using h) (i + 1)
      | «감액기간tag» a b => exact ih (by simpa [noOCtags] using h) (i + 1)
      | «지급률tag» a b c d e f => exact ih (by simpa [noOCtags] using h) (i + 1)

theorem noOCtags_append (l1 l2 : List Seg) :
    noOCtags (l1 ++ l2) = (noOCtags l1 && noOCtags l2) := by
  induction l1 with
  | nil => simp [noOCtags]
  | cons s rest ih => cases s <;> simp [noOCtags, ih]

theorem findMatchesAux_append (fam : OCFam) (l1 l2 : List Seg) :
    ∀ i, findMatchesAux fam (l1 ++ l2) i =
      findMatchesAux fam l1 i ++ findMatchesAux fam l2 (i + l1.length) := by
  induction l1 with
  | nil => intro i; simp [findMatchesAux]
  | cons s rest ih =>
      intro i
      have harith : i + (rest.length + 1) = (i + 1) + rest.length := by omega
      cases s with
      | octag f a b =>
          by_cases hf : f = fam <;>
            simp [findMatchesAux, hf, ih (i + 1), List.length_cons, harith]
      | txt v => simp [findMatchesAux, ih (i + 1), List.length_cons, harith]
      | subtagN f a => simp [findMatchesAux, ih (i + 1), List.length_cons, harith]
      | subtagD f a => simp [findMatchesAux, ih (i + 1), List.length_cons, harith]
      | subtagPlain => simp [findMatchesAux, ih (i + 1), List.length_cons, harith]
      | «감액기간tag» a b =>
          simp [findMatchesAux, ih (i + 1), List.length_cons, harith]
      | «지급률tag» a b c d e f =>
          simp [findMatchesAux, ih (i + 1), List.length_cons, harith]

theorem findMatches_pair (fam : OCFam) (n k1 k2 : Nat) (pre mid post : List Seg)
    (hpre : noOCtags pre = true) (hmid : noOCtags mid = true)
    (hpost : noOCtags post = true) :
    findMatches fam (pre ++ .octag fam n k1 :: (mid ++ .octag fam n k2 :: post)) =
      [⟨pre.length, n, k1⟩, ⟨pre.length + 1 + mid.length, n, k2⟩] := by
  unfold findMatches
  rw [findMatchesAux_append fam pre _ 0,
    findMatchesAux_of_noOC fam pre hpre 0]
  simp only [List.nil_append, Nat.zero_add]
  show findMatchesAux fam (.octag fam n k1 :: (mid ++ .octag fam n k2 :: post))
      pre.length = _
  simp only [findMatchesAux, if_pos rfl]
  rw [findMatchesAux_append fam mid _ (pre.length + 1),
    findMatchesAux_of_noOC fam mid hmid (pre.length + 1)]
  simp only [List.nil_append]
  show _ :: findMatchesAux fam (.octag fam n k2 :: post)
      (pre.length + 1 + mid.length) = _
  simp only [findMatchesAux, if_pos rfl]
  rw [findMatchesAux_of_noOC fam post hpost]
  simp

theorem take_len_append {α : Type} (l1 l2 : List α) {n : Nat}
    (h : n = l1.length) : (l1 ++ l2).take n = l1 := by
  subst h; exact List.take_left l1 l2

theorem drop_len_append {α : Type} (l1 l2 : List α) {n : Nat}
    (h : n = l1.length) : (l1 ++ l2).drop n = l2 := by
  subst h; exact List.drop_left l1 l2

theorem deleteTagsOnly_pair (pre mid post : List Seg) (t1 t2 : Seg) :
    deleteTagsOnly (pre ++ t1 :: (mid ++ t2 :: post)) pre.length
      (pre.length + 1 + mid.length) = pre ++ (mid ++ post) := by
  unfold deleteTagsOnly
  have h1 : (pre ++ t1 :: (mid ++ t2 :: post)).take pre.length = pre :=
    take_len_append pre _ rfl
  have h2 : (pre ++ t1 :: (mid ++ t2 :: post)).drop (pre.length + 1) =
      mid ++ t2 :: post := by
    have he : pre ++ t1 :: (mid ++ t2 :: post) =
        (pre ++ [t1]) ++ (mid ++ t2 :: post) := by simp
    rw [he]
    exact drop_len_append _ _ (by simp)
  have harith : pre.length + 1 + mid.length - (pre.length + 1) = mid.length := by
    omega
  have h3 : (mid ++ t2 :: post).take (mid.length) = mid :=
    take_len_append mid _ rfl
  have h4 : (pre ++ t1 :: (mid ++ t2 :: post)).drop
      (pre.length + 1 + mid.length + 1) = post := by
    have he : pre ++ t1 :: (mid ++ t2 :: post) =
        ((pre ++ [t1]) ++ (mid ++ [t2])) ++ post := by simp
    rw [he]
    refine drop_len_append _ _ ?_
    simp [List.length_append]
    omega
  rw [h1, h2, harith, h3, h4, List.append_assoc]

theorem deleteAll_pair (pre mid post : List Seg) (t1 t2 : Seg) :
    deleteAll (pre ++ t1 :: (mid ++ t2 :: post)) pre.length
      (pre.length + 1 + mid.length) = pre ++ post := by
  unfold deleteAll
  have h1 : (pre ++ t1 :: (mid ++ t2 :: post)).take pre.length = pre :=
    take_len_append pre _ rfl
  have h4 : (pre ++ t1 :: (mid ++ t2 :: post)).drop
      (pre.length + 1 + mid.length + 1) = post := by
    have he : pre ++ t1 :: (mid ++ t2 :: post) =
        ((pre ++ [t1]) ++ (mid ++ [t2])) ++ post := by simp
    rw [he]
    refine drop_len_append _ _ ?_
    simp [List.length_append]
    omega
  rw [h1, h4]

theorem process_single_of_no_matches (ctx : TagContext) (f : OCFam)
    (t : List Seg) (h : findMatches f t = []) :
    «_process_single_output_tag» ctx f t = t := by
  simp [«_process_single_output_tag», h]

theorem ocLoop_empty (ctx : TagContext) (fam : OCFam) (c : Nat) (t : List Seg) :
    ocLoop ctx fam (c + 1) t [] 0 = t := by
  simp [ocLoop]

theorem ocLoop_pair (ctx : TagContext) (fam : OCFam) (c : Nat)
    (text : List Seg) (m1 m2 : OCMatch) (R : List Seg)
    (hvalid : validPair m1.k m2.k = true)
    (hR : (if m1.k = 1 ∨ m1.k = 2 then
            if «_get_attribute_value» (famAttrName fam)
                (if famHasN fam then m1.n else 1) ctx
            then deleteTagsOnly text m1.pos m2.pos
            else deleteAll text m1.pos m2.pos
          else
            if «_get_attribute_value» (famAttrName fam)
                (if famHasN fam then m1.n else 1) ctx
            then deleteAll text m1.pos m2.pos
            else deleteTagsOnly text m1.pos m2.pos) = R)
    (hRfind : findMatches fam R = []) :
    ocLoop ctx fam ((c + 1) + 1) text [m1, m2] 0 = R := by
  simp only [ocLoop, List.get?]
  rw [if_pos hvalid, hR, hRfind]
  exact ocLoop_empty ctx fam c R

theorem process_single_pair (ctx : TagContext) (fam : OCFam) (n k1 k2 : Nat)
    (pre mid post : List Seg)
    (hpre : noOCtags pre = true) (hmid : noOCtags mid = true)
    (hpost : noOCtags post = true)
    (hwf : (k1 = 1 ∧ k2 = 2) ∨ (k1 = 3 ∧ k2 = 4)) :
    «_process_single_output_tag» ctx fam
        (pre ++ .octag fam n k1 :: (mid ++ .octag fam n k2 :: post)) =
      if «_get_attribute_value» (famAttrName fam) (if famHasN fam then n else 1)
          ctx = decide (k1 = 1 ∨ k1 = 2)
      then pre ++ (mid ++ post) else pre ++ post := by
  have hfind := findMatches_pair fam n k1 k2 pre mid post hpre hmid hpost
  have hkeepOC : noOCtags (pre ++ (mid ++ post)) = true := by
    simp [noOCtags_append, hpre, hmid, hpost]
  have hdropOC : noOCtags (pre ++ post) = true := by
    simp [noOCtags_append, hpre, hpost]
  have hfindKeep : findMatches fam (pre ++ (mid ++ post)) = [] :=
    findMatchesAux_of_noOC fam _ hkeepOC 0
  have hfindDrop : findMatches fam (pre ++ post) = [] :=
    findMatchesAux_of_noOC fam _ hdropOC 0
  set text := pre ++ .octag fam n k1 :: (mid ++ .octag fam n k2 :: post)
    with htext
  have hlen1 : 1 ≤ text.length := by
    rw [htext]
    simp only [List.length_append, List.length_cons]
    omega
  have hfuel : 2 ≤ (text.length + 1) * (text.length + 1) := by
    calc 2 ≤ text.length + 1 := by omega
      _ = (text.length + 1) * 1 := by omega
      _ ≤ (text.length + 1) * (text.length + 1) :=
          Nat.mul_le_mul_left _ (by omega)
  obtain ⟨c, hc⟩ := Nat.le.dest hfuel
  have hcc : (text.length + 1) * (text.length + 1) = (c + 1) + 1 := by omega
  unfold «_process_single_output_tag»
  rw [hfind, hcc, if_neg (by simp)]
  rcases hwf with ⟨hk1, hk2⟩ | ⟨hk1, hk2⟩ <;> subst hk1 <;> subst hk2
  · -- (K1, K2) = (1, 2): the -1/-2 rule of the source
    cases hv : «_get_attribute_value» (famAttrName fam)
        (if famHasN fam then n else 1) ctx with
    | true =>
        rw [if_pos (by decide)]
        refine ocLoop_pair ctx fam c text ⟨pre.length, n, 1⟩
          ⟨pre.length + 1 + mid.length, n, 2⟩ _ rfl ?_ hfindKeep
        rw [if_pos (by norm_num : (1 : Nat) = 1 ∨ (1 : Nat) = 2)]
        rw [if_pos hv]
        exact deleteTagsOnly_pair pre mid post _ _
    | false =>
        rw [if_neg (by decide)]
        refine ocLoop_pair ctx fam c text ⟨pre.length, n, 1⟩
          ⟨pre.length + 1 + mid.length, n, 2⟩ _ rfl ?_ hfindDrop
        rw [if_pos (by norm_num : (1 : Nat) = 1 ∨ (1 : Nat) = 2)]
        rw [if_neg (by rw [hv]; simp)]
        exact deleteAll_pair pre mid post _ _
  · -- (K1, K2) = (3, 4): the -3/-4 rule of the source
    cases hv : «_get_attribute_value» (famAttrName fam)
        (if famHasN fam then n else 1) ctx with
    | true =>
        rw [if_neg (by decide)]
        refine ocLoop_pair ctx fam c text ⟨pre.length, n, 3⟩
          ⟨pre.length + 1 + mid.length, n, 4⟩ _ rfl ?_ hfindDrop
        rw [if_neg (by norm_num : ¬((3 : Nat) = 1 ∨ (3 : Nat) = 2))]
        rw [if_pos hv]
        exact deleteAll_pair pre mid post _ _
    | false =>
        rw [if_pos (by decide)]
        refine ocLoop_pair ctx fam c text ⟨pre.length, n, 3⟩
          ⟨pre.length + 1 + mid.length, n, 4⟩ _ rfl ?_ hfindKeep
        rw [if_neg (by norm_num : ¬((3 : Nat) = 1 ∨ (3 : Nat) = 2))]
        rw [if_neg (by rw [hv]; simp)]
        exact deleteTagsOnly_pair pre mid post _ _

theorem foldl_process_of_noOC (ctx : TagContext) (t : List Seg)
    (h : noOCtags t = true) :
    ∀ fams : List OCFam,
      fams.foldl (fun x f => «_process_single_output_tag» ctx f x) t = t := by
  intro fams
  induction fams with
  | nil => rfl
  | cons f rest ih =>
      rw [List.foldl_cons,
        process_single_of_no_matches ctx f t (findMatchesAux_of_noOC f t h 0)]
      exact ih

theorem foldl_process_single_fam (ctx : TagContext) (fam : OCFam)
    (text R : List Seg)
    (hstep : «_process_single_output_tag» ctx fam text = R)
    (hothers : ∀ f, f ≠ fam → findMatches f text = [])
    (hR : noOCtags R = true) :
    ∀ fams : List OCFam, fam ∈ fams →
      fams.foldl (fun t f => «_process_single_output_tag» ctx f t) text = R := by
  intro fams
  induction fams with
  | nil => intro hmem; cases hmem
  | cons f rest ih =>
      intro hmem
      rw [List.foldl_cons]
      by_cases hf : f = fam
      · subst hf
        rw [hstep]
        exact foldl_process_of_noOC ctx R hR rest
      · rw [process_single_of_no_matches ctx f text (hothers f hf)]
        rcases List.mem_cons.mp hmem with hEq | hRest
        · exact absurd hEq.symm hf
        · exact ih hRest

theorem mem_ocFamList (fam : OCFam) : fam ∈ ocFamList := by
  cases fam <;> simp [ocFamList]

theorem findMatches_pair_other (fam f : OCFam) (hneq : f ≠ fam)
    (n k1 k2 : Nat) (pre mid post : List Seg)
    (hpre : noOCtags pre = true) (hmid : noOCtags mid = true)
    (hpost : noOCtags post = true) :
    findMatches f (pre ++ .octag fam n k1 :: (mid ++ .octag fam n k2 :: post)) =
      [] := by
  unfold findMatches
  rw [findMatchesAux_append f pre _ 0, findMatchesAux_of_noOC f pre hpre 0]
  simp only [List.nil_append]
  show findMatchesAux f (.octag fam n k1 :: (mid ++ .octag fam n k2 :: post))
      (0 + pre.length) = _
  rw [show findMatchesAux f (.octag fam n k1 :: (mid ++ .octag fam n k2 :: post))
        (0 + pre.length) =
      findMatchesAux f (mid ++ .octag fam n k2 :: post) (0 + pre.length + 1)
    from by simp [findMatchesAux, Ne.symm hneq]]
  rw [findMatchesAux_append f mid _ _, findMatchesAux_of_noOC f mid hmid]
  simp only [List.nil_append]
  rw [show findMatchesAux f (.octag fam n k2 :: post)
        (0 + pre.length + 1 + mid.length) =
      findMatchesAux f post (0 + pre.length + 1 + mid.length + 1)
    from by simp [findMatchesAux, Ne.symm hneq]]
  exact findMatchesAux_of_noOC f post hpost _

/-- C1: Pass 1 obeys the deletion-policy table on every text unit holding a
single well-formed output-control pair (opening `K1` before closing `K2`,
`(K1, K2)` being `(1, 2)` or `(3, 4)`) with no other output-control tag in
the unit: for `K1 ∈ {1,2}` with the context attribute true only the two tag
markers are deleted and the enclosed content is kept, with the attribute
false the markers and enclosed content are deleted; for `K1 ∈ {3,4}` the
two outcomes are swapped; the text before and after the pair is returned
unchanged. -/
theorem C1_output_control_deletion_policy (ctx : TagContext) (fam : OCFam)
    (n k1 k2 : Nat) (pre mid post : List Seg)
    (hpre : noOCtags pre = true) (hmid : noOCtags mid = true)
    (hpost : noOCtags post = true)
    (hwf : (k1 = 1 ∧ k2 = 2) ∨ (k1 = 3 ∧ k2 = 4)) :
    «_process_output_control_tags» ctx
        (pre ++ .octag fam n k1 :: (mid ++ .octag fam n k2 :: post)) =
      if «_get_attribute_value» (famAttrName fam) (if famHasN fam then n else 1)
          ctx = decide (k1 = 1 ∨ k1 = 2)
      then pre ++ (mid ++ post) else pre ++ post := by
  unfold «_process_output_control_tags»
  refine foldl_process_single_fam ctx fam _ _
    (process_single_pair ctx fam n k1 k2 pre mid post hpre hmid hpost hwf)
    (fun f hf => findMatches_pair_other fam f hf n k1 k2 pre mid post
      hpre hmid hpost)
    ?_ ocFamList (mem_ocFamList fam)
  by_cases hcond : «_get_attribute_value» (famAttrName fam)
      (if famHasN fam then n else 1) ctx = decide (k1 = 1 ∨ k1 = 2)
  · rw [if_pos hcond]
    simp [noOCtags_append, hpre, hmid, hpost]
  · rw [if_neg hcond]
    simp [noOCtags_append, hpre, hpost]

/-- C1 witness: a concrete `{면책0-1} … {면책0-2}` pair with the attribute
true keeps the enclosed content and deletes only the markers. -/
theorem C1_output_control_witness :
    «_process_output_control_tags» ctxC1w
        ([Seg.txt "앞"] ++ .octag .«면책» 0 1 ::
          ([Seg.txt "면책내용"] ++ .octag .«면책» 0 2 :: [Seg.txt "뒤"])) =
      [Seg.txt "앞"] ++ ([Seg.txt "면책내용"] ++ [Seg.txt "뒤"]) := by
  have h := C1_output_control_deletion_policy ctxC1w .«면책» 0 1 2
    [Seg.txt "앞"] [Seg.txt "면책내용"] [Seg.txt "뒤"]
    (by decide) (by decide) (by decide) (Or.inl ⟨rfl, rfl⟩)
  rw [h, if_pos (by decide)]
